import Mathlib

/-!
Verification of the system-property accessor component of
`android-games-sdk/src/common/system_utils.cpp` (rust-mobile/android-activity).

The external Android property namespace is modelled as a partial map from
keys to string values.  The two OS query paths selected by the
`__ANDROID_API__ >= 26` preprocessor check are modelled as the two
constructors of `ApiPath`.  Each C++ function of `system_utils.cpp` is
embedded as a Lean function of the same name over this model.
-/

namespace SystemUtils

/-- The external, process-wide property namespace: `some v` when the key is
present with value `v` (possibly the empty string), `none` when absent.
Models the store read by `__system_property_find` /
`__system_property_get`. -/
def PropNamespace := String → Option String

/-- Which underlying OS query path the preprocessor selects:
`callback` for `__ANDROID_API__ >= 26` (`getSystemPropViaCallback`),
`legacyGet` otherwise (`getSystemPropViaGet`). -/
inductive ApiPath where
  | callback
  | legacyGet
deriving DecidableEq

/-- Embedding of `getSystemPropViaCallback` (system_utils.cpp, API >= 26):
`__system_property_find` returns null for an absent key, in which case
`default_value` is returned; otherwise `__system_property_read_callback`
copies the (non-null) current value into the result string. -/
def getSystemPropViaCallback (ns : PropNamespace) (key : String)
    (default_value : String := "") : String :=
  match ns key with
  | none => default_value
  | some value => value

/-- Embedding of `getSystemPropViaGet` (system_utils.cpp, API < 26):
a zero-initialised buffer is filled by `__system_property_get`, which
returns the value's length (0 when the key is absent or its value empty);
the function returns the buffer when that length is positive and the empty
string otherwise.  Note that `default_value` is never used. -/
def getSystemPropViaGet (ns : PropNamespace) (key : String)
    (default_value : String := "") : String :=
  let buffer : String := match ns key with
    | none => ""
    | some value => value
  let bufferLen : Nat := buffer.length
  if bufferLen > 0 then buffer else ""

/-- Embedding of `GetSystemProp`: dispatches on the preprocessor-selected
API path. -/
def GetSystemProp (path : ApiPath) (ns : PropNamespace) (key : String)
    (default_value : String := "") : String :=
  match path with
  | .callback => getSystemPropViaCallback ns key default_value
  | .legacyGet => getSystemPropViaGet ns key default_value

/-- `isspace` of the C locale, as consulted by `strtoll`. -/
def isSpaceChar (c : Char) : Bool :=
  c = ' ' || c = '\t' || c = '\n' || c = '\x0b' || c = '\x0c' || c = '\r'

/-- Base-10 value of a list of decimal digit characters (the accumulation
loop of `strtoll` on its digit run). -/
def digitsVal (ds : List Char) : Nat :=
  ds.foldl (fun a c => a * 10 + (c.toNat - 48)) 0

/-- `LLONG_MAX` of the C `long long` type. -/
def LLONG_MAX : Int := 9223372036854775807

/-- `LLONG_MIN` of the C `long long` type. -/
def LLONG_MIN : Int := -9223372036854775808

/-- `strtoll` clamps an out-of-range converted value to the `long long`
range. -/
def clampLL (v : Int) : Int :=
  if v > LLONG_MAX then LLONG_MAX
  else if v < LLONG_MIN then LLONG_MIN
  else v

/-- The sign-and-digits phase of `strtoll(s, nullptr, 10)` after leading
whitespace has been skipped: consume an optional single `+` or `-`, then
convert the longest run of decimal digits (an empty run converts to 0),
clamping to the `long long` range. -/
def strtollBody : List Char → Int
  | [] => clampLL 0
  | c :: rest =>
    if c = '-' then clampLL (-(digitsVal (rest.takeWhile Char.isDigit) : Int))
    else if c = '+' then clampLL ((digitsVal (rest.takeWhile Char.isDigit) : Int))
    else clampLL ((digitsVal ((c :: rest).takeWhile Char.isDigit) : Int))

/-- Embedding of `strtoll(s, nullptr, 10)`: skip leading `isspace`
characters, then convert sign and digit run. -/
def strtoll10 (cs : List Char) : Int :=
  strtollBody (cs.dropWhile isSpaceChar)

/-- Integer denoted by an optional sign (`[]`, `['+']` or `['-']`) applied
to a digit-run value. -/
def signVal (sgn : List Char) (n : Nat) : Int :=
  if sgn = ['-'] then -(n : Int) else (n : Int)

/-- Conversion of the `long long` result of `strtoll` to the 32-bit `int`
return type of `GetSystemPropAsInt` (two's-complement wraparound, the
behaviour on Android's ABI). -/
def intOfLL (v : Int) : Int :=
  (v + 2147483648) % 4294967296 - 2147483648

/-- Embedding of `GetSystemPropAsInt`: retrieves the property with the
empty string as default, returns `default_value` when the retrieved
string is empty, and otherwise the `strtoll` base-10 conversion narrowed
to `int`. -/
def GetSystemPropAsInt (path : ApiPath) (ns : PropNamespace) (key : String)
    (default_value : Int := 0) : Int :=
  let prop := GetSystemProp path ns key
  if prop = "" then default_value else intOfLL (strtoll10 prop.data)

/-- Embedding of `GetSystemPropAsBool`: the C++ `bool` default is widened
to `int` (`true ↦ 1`, `false ↦ 0`) and the integer result compared against
zero. -/
def GetSystemPropAsBool (path : ApiPath) (ns : PropNamespace) (key : String)
    (default_value : Bool := false) : Bool :=
  GetSystemPropAsInt path ns key (if default_value then 1 else 0) != 0

/-!
State-passing embedding: the same functions with the external namespace
threaded explicitly as mutable state, mirroring each call to the OS
property primitives. Used to express that no operation writes to the
namespace. The OS primitives themselves are queries (reads) of the store.
-/

/-- `__system_property_find(key)`: returns a handle to the property entry
(modelled by its value) or null, without modifying the store. -/
def systemPropertyFindS (key : String) :
    PropNamespace → Option String × PropNamespace :=
  fun s => (s key, s)

/-- `__system_property_read_callback(prop, thunk, &r)`: invokes the thunk
with the entry's (non-null) value, which the thunk copies into the result
string; the store is not modified. -/
def systemPropertyReadCallbackS (value : String) :
    PropNamespace → String × PropNamespace :=
  fun s => (value, s)

/-- `__system_property_get(key, buffer)`: fills the buffer with the value
(empty when absent) and returns its length, without modifying the store. -/
def systemPropertyGetS (key : String) :
    PropNamespace → (String × Nat) × PropNamespace :=
  fun s =>
    match s key with
    | none => (("", 0), s)
    | some value => ((value, value.length), s)

/-- State-passing form of `getSystemPropViaCallback`. -/
def getSystemPropViaCallbackS (key : String) (default_value : String := "") :
    PropNamespace → String × PropNamespace := fun s =>
  let r := systemPropertyFindS key s
  match r.1 with
  | none => (default_value, r.2)
  | some value => systemPropertyReadCallbackS value r.2

/-- State-passing form of `getSystemPropViaGet`; `r.1.1` is the filled
buffer and `r.1.2` the length returned by `__system_property_get`. -/
def getSystemPropViaGetS (key : String) (default_value : String := "") :
    PropNamespace → String × PropNamespace := fun s =>
  let r := systemPropertyGetS key s
  ((if r.1.2 > 0 then r.1.1 else ""), r.2)

/-- State-passing form of `GetSystemProp`. -/
def GetSystemPropS (path : ApiPath) (key : String) (default_value : String := "") :
    PropNamespace → String × PropNamespace :=
  match path with
  | .callback => getSystemPropViaCallbackS key default_value
  | .legacyGet => getSystemPropViaGetS key default_value

/-- State-passing form of `GetSystemPropAsInt`; the decode of the
retrieved string is the pure function `intOfLL ∘ strtoll10`. -/
def GetSystemPropAsIntS (path : ApiPath) (key : String) (default_value : Int := 0) :
    PropNamespace → Int × PropNamespace := fun s =>
  let r := GetSystemPropS path key "" s
  ((if r.1 = "" then default_value else intOfLL (strtoll10 r.1.data)), r.2)

/-- State-passing form of `GetSystemPropAsBool`. -/
def GetSystemPropAsBoolS (path : ApiPath) (key : String) (default_value : Bool := false) :
    PropNamespace → Bool × PropNamespace := fun s =>
  let r := GetSystemPropAsIntS path key (if default_value then 1 else 0) s
  ((r.1 != 0), r.2)

/-- Concrete example namespace, used to instantiate theorems. -/
def nsEx : PropNamespace := fun k =>
  if k = "debug.foo.level" then some "3"
  else if k = "debug.foo.on" then some ""
  else if k = "debug.zero" then some "0"
  else if k = "debug.one" then some "1"
  else if k = "debug.mixed" then some "42abc"
  else if k = "debug.word" then some "abc"
  else none

/-- A second concrete namespace agreeing with `nsEx` on `debug.foo.level`
but differing elsewhere. -/
def nsEx2 : PropNamespace := fun k =>
  if k = "debug.foo.level" then some "3"
  else if k = "other.key" then some "99"
  else none

/-!
Helper lemmas.
-/

theorem string_eq_empty_iff (v : String) : v = "" ↔ v.data = [] := by
  constructor
  · intro h; subst h; rfl
  · intro h
    cases v with
    | mk data => cases h; rfl

theorem isDigit_not_space {c : Char} (h : c.isDigit = true) :
    isSpaceChar c = false := by
  by_contra hc
  have hc' : isSpaceChar c = true := by
    cases hx : isSpaceChar c
    · exact absurd hx hc
    · rfl
  unfold isSpaceChar at hc'
  simp only [Bool.or_eq_true, decide_eq_true_eq] at hc'
  rcases hc' with ((((h1 | h1) | h1) | h1) | h1) | h1 <;> subst h1 <;> simp at h

theorem isDigit_ne_minus {c : Char} (h : c.isDigit = true) : c ≠ '-' := by
  intro he; subst he; simp at h

theorem isDigit_ne_plus {c : Char} (h : c.isDigit = true) : c ≠ '+' := by
  intro he; subst he; simp at h

theorem takeWhile_head_neg {p : Char → Bool} {l : List Char}
    (h : ∀ c, l.head? = some c → p c = false) : l.takeWhile p = [] := by
  cases l with
  | nil => rfl
  | cons c t =>
    rw [List.takeWhile_cons_of_neg]
    simp [h c rfl]

theorem getSystemProp_present (path : ApiPath) (ns : PropNamespace)
    (key v d : String) (h : ns key = some v) :
    GetSystemProp path ns key d = v := by
  cases path with
  | callback => simp [GetSystemProp, getSystemPropViaCallback, h]
  | legacyGet =>
    simp only [GetSystemProp, getSystemPropViaGet, h]
    by_cases hv : v = ""
    · subst hv; simp
    · have hd : v.data ≠ [] := fun hh => hv ((string_eq_empty_iff v).mpr hh)
      have hl : v.length > 0 := by
        show v.data.length > 0
        exact List.length_pos.mpr hd
      rw [if_pos hl]

theorem getSystemProp_absent_callback (ns : PropNamespace) (key d : String)
    (h : ns key = none) : GetSystemProp .callback ns key d = d := by
  simp [GetSystemProp, getSystemPropViaCallback, h]

theorem getSystemProp_absent_legacy (ns : PropNamespace) (key d : String)
    (h : ns key = none) : GetSystemProp .legacyGet ns key d = "" := by
  simp [GetSystemProp, getSystemPropViaGet, h]

theorem clampLL_eq_self {x : Int} (h1 : LLONG_MIN ≤ x) (h2 : x ≤ LLONG_MAX) :
    clampLL x = x := by
  unfold clampLL LLONG_MIN LLONG_MAX at *
  omega

theorem intOfLL_eq_self {x : Int} (h1 : -2147483648 ≤ x)
    (h2 : x ≤ 2147483647) : intOfLL x = x := by
  unfold intOfLL
  omega

theorem strtoll10_decomp (ws sgn ds rest : List Char)
    (hws : ∀ c ∈ ws, isSpaceChar c = true)
    (hsgn : sgn = [] ∨ sgn = ['+'] ∨ sgn = ['-'])
    (hds : ∀ c ∈ ds, c.isDigit = true)
    (hrest : ∀ c, rest.head? = some c →
      c.isDigit = false ∧ isSpaceChar c = false ∧ c ≠ '+' ∧ c ≠ '-') :
    strtoll10 (ws ++ (sgn ++ (ds ++ rest))) =
      clampLL (signVal sgn (digitsVal ds)) := by
  unfold strtoll10
  rw [List.dropWhile_append_of_pos hws]
  have htw : rest.takeWhile Char.isDigit = [] :=
    takeWhile_head_neg (fun c hc => (hrest c hc).1)
  rcases hsgn with h | h | h <;> subst h
  · cases ds with
    | nil =>
      cases rest with
      | nil => simp [strtollBody, signVal, digitsVal]
      | cons c t =>
        obtain ⟨hdg, hsp, hpl, hmi⟩ := hrest c rfl
        simp only [List.nil_append]
        rw [List.dropWhile_cons_of_neg (by simp [hsp])]
        simp only [strtollBody]
        rw [if_neg hmi, if_neg hpl]
        rw [takeWhile_head_neg (p := Char.isDigit) (l := c :: t)
          (fun d hd => by
            have : c = d := Option.some.inj hd
            exact this ▸ hdg)]
        simp [signVal, digitsVal]
    | cons c ds' =>
      have hc := hds c (by simp)
      simp only [List.nil_append, List.cons_append]
      rw [List.dropWhile_cons_of_neg (by simp [isDigit_not_space hc])]
      simp only [strtollBody]
      rw [if_neg (isDigit_ne_minus hc), if_neg (isDigit_ne_plus hc)]
      rw [← List.cons_append]
      rw [List.takeWhile_append_of_pos hds, htw]
      simp [signVal]
  · simp only [List.cons_append, List.nil_append]
    rw [List.dropWhile_cons_of_neg (by decide)]
    simp only [strtollBody, if_true]
    rw [if_neg (by decide), List.takeWhile_append_of_pos hds, htw]
    simp [signVal]
  · simp only [List.cons_append, List.nil_append]
    rw [List.dropWhile_cons_of_neg (by decide)]
    simp only [strtollBody, if_true]
    rw [List.takeWhile_append_of_pos hds, htw]
    simp [signVal]

theorem getAsInt_present_nonempty (path : ApiPath) (ns : PropNamespace)
    (key : String) (v : String) (D : Int) (h : ns key = some v)
    (hv : v ≠ "") :
    GetSystemPropAsInt path ns key D = intOfLL (strtoll10 v.data) := by
  unfold GetSystemPropAsInt
  rw [getSystemProp_present path ns key v "" h, if_neg hv]

theorem getAsInt_retrieved_empty (path : ApiPath) (ns : PropNamespace)
    (key : String) (D : Int) (h : ns key = none ∨ ns key = some "") :
    GetSystemPropAsInt path ns key D = D := by
  unfold GetSystemPropAsInt
  have hget : GetSystemProp path ns key "" = "" := by
    rcases h with h | h
    · cases path
      · exact getSystemProp_absent_callback ns key "" h
      · exact getSystemProp_absent_legacy ns key "" h
    · exact getSystemProp_present path ns key "" "" h
  rw [hget, if_pos rfl]

/-!
Claim theorems.
-/

/-- Claim C1 (code bug): the spec says an absent key yields the caller's
default on whichever query path is selected, but `getSystemPropViaGet`
never reads its `default_value` parameter: on the legacy buffer-fill path
an absent key yields the empty string, not the default.  At the concrete
failing input (absent key, default `"fallback"`), the callback path
returns `"fallback"` while the legacy path returns `""`. -/
theorem claim_c1_legacy_drops_default :
    GetSystemProp ApiPath.callback (fun _ => none) "ro.missing" "fallback"
        = "fallback" ∧
    GetSystemProp ApiPath.legacyGet (fun _ => none) "ro.missing" "fallback"
        = "" ∧
    ("" : String) ≠ "fallback" := by
  refine ⟨rfl, rfl, by decide⟩

/-- Claim C2: for every key present in the namespace with value `V`
(including the empty string) and every default `D`, `GetSystemProp`
returns `V` on either query path, independent of `D`. -/
theorem claim_c2_present_returns_value (path : ApiPath) (ns : PropNamespace)
    (key V D : String) (h : ns key = some V) :
    GetSystemProp path ns key D = V :=
  getSystemProp_present path ns key V D h

theorem claim_c2_witness :
    nsEx "debug.foo.level" = some "3" ∧
    GetSystemProp ApiPath.legacyGet nsEx "debug.foo.level" "D" = "3" :=
  ⟨rfl, claim_c2_present_returns_value ApiPath.legacyGet nsEx
      "debug.foo.level" "3" "D" rfl⟩

/-- Claim C3: if the key is absent, or present with the empty string as
value, `GetSystemPropAsInt` returns the caller's default exactly (the
parse branch is never reached: the retrieved string is empty on either
path). -/
theorem claim_c3_empty_returns_default (path : ApiPath) (ns : PropNamespace)
    (key : String) (D : Int) (h : ns key = none ∨ ns key = some "") :
    GetSystemPropAsInt path ns key D = D :=
  getAsInt_retrieved_empty path ns key D h

theorem claim_c3_witness :
    (nsEx "debug.foo.missing" = none ∨ nsEx "debug.foo.missing" = some "") ∧
    GetSystemPropAsInt ApiPath.callback nsEx "debug.foo.missing" (-1) = -1 :=
  ⟨Or.inl rfl, claim_c3_empty_returns_default ApiPath.callback nsEx
      "debug.foo.missing" (-1) (Or.inl rfl)⟩

/-- Claim C4: `GetSystemPropAsBool key d` is exactly
`GetSystemPropAsInt key (d ? 1 : 0) ≠ 0`; in particular a present value
`"0"` yields `false` and a present value `"1"` yields `true`, for any
default `d`. -/
theorem claim_c4_bool_is_int_ne_zero (path : ApiPath) (ns : PropNamespace)
    (key : String) (d : Bool) :
    (GetSystemPropAsBool path ns key d = true ↔
      GetSystemPropAsInt path ns key (if d then 1 else 0) ≠ 0) ∧
    (ns key = some "0" → GetSystemPropAsBool path ns key d = false) ∧
    (ns key = some "1" → GetSystemPropAsBool path ns key d = true) := by
  refine ⟨?_, ?_, ?_⟩
  · unfold GetSystemPropAsBool
    simp [bne_iff_ne]
  · intro h
    unfold GetSystemPropAsBool
    rw [getAsInt_present_nonempty path ns key "0" _ h (by decide)]
    decide
  · intro h
    unfold GetSystemPropAsBool
    rw [getAsInt_present_nonempty path ns key "1" _ h (by decide)]
    decide

theorem claim_c4_witness :
    nsEx "debug.zero" = some "0" ∧
    GetSystemPropAsBool ApiPath.callback nsEx "debug.zero" true = false ∧
    nsEx "debug.one" = some "1" ∧
    GetSystemPropAsBool ApiPath.callback nsEx "debug.one" false = true :=
  ⟨rfl,
   (claim_c4_bool_is_int_ne_zero ApiPath.callback nsEx "debug.zero" true).2.1 rfl,
   rfl,
   (claim_c4_bool_is_int_ne_zero ApiPath.callback nsEx "debug.one" false).2.2 rfl⟩

/-- Claim C5: a key present with a well-formed base-10 integer value
(optional leading whitespace, optional single sign, then at least one
decimal digit) whose denoted integer is representable as a 32-bit `int`
makes `GetSystemPropAsInt` return that integer for any default `D`. -/
theorem claim_c5_wellformed_int (path : ApiPath) (ns : PropNamespace)
    (key : String) (D : Int) (ws sgn ds : List Char) (v : String)
    (hv : ns key = some v)
    (hdata : v.data = ws ++ (sgn ++ ds))
    (hws : ∀ c ∈ ws, isSpaceChar c = true)
    (hsgn : sgn = [] ∨ sgn = ['+'] ∨ sgn = ['-'])
    (hdsne : ds ≠ [])
    (hds : ∀ c ∈ ds, c.isDigit = true)
    (hlo : -2147483648 ≤ signVal sgn (digitsVal ds))
    (hhi : signVal sgn (digitsVal ds) ≤ 2147483647) :
    GetSystemPropAsInt path ns key D = signVal sgn (digitsVal ds) := by
  have hne : v ≠ "" := by
    intro he
    subst he
    have h0 : ([] : List Char) = ws ++ (sgn ++ ds) := hdata
    rcases List.append_eq_nil.mp h0.symm with ⟨-, h1⟩
    rcases List.append_eq_nil.mp h1 with ⟨-, h2⟩
    exact hdsne h2
  rw [getAsInt_present_nonempty path ns key v D hv hne, hdata]
  have hdec := strtoll10_decomp ws sgn ds [] hws hsgn hds
    (fun c hc => by cases hc)
  rw [List.append_nil] at hdec
  rw [hdec, clampLL_eq_self (by unfold LLONG_MIN; omega) (by unfold LLONG_MAX; omega),
    intOfLL_eq_self hlo hhi]

theorem claim_c5_witness :
    nsEx "debug.foo.level" = some "3" ∧
    ("3" : String).data = [] ++ ([] ++ ['3']) ∧
    GetSystemPropAsInt ApiPath.callback nsEx "debug.foo.level" (-1) = 3 := by
  refine ⟨rfl, rfl, ?_⟩
  have h := claim_c5_wellformed_int ApiPath.callback nsEx "debug.foo.level"
    (-1) [] [] ['3'] "3" rfl rfl
    (fun c hc => by cases hc) (Or.inl rfl) (by decide)
    (by intro c hc; cases hc with
        | head => decide
        | tail _ hm => cases hm)
    (by decide) (by decide)
  exact h.trans (by decide)

/-- Claim C6: a key present with the empty string as value makes
`GetSystemPropAsBool key true` return `true`: the empty value falls back
to the boolean default carried through the integer path. -/
theorem claim_c6_empty_value_bool_default (path : ApiPath)
    (ns : PropNamespace) (key : String) (h : ns key = some "") :
    GetSystemPropAsBool path ns key true = true := by
  unfold GetSystemPropAsBool
  rw [getAsInt_retrieved_empty path ns key _ (Or.inr h)]
  decide

theorem claim_c6_witness :
    nsEx "debug.foo.on" = some "" ∧
    GetSystemPropAsBool ApiPath.callback nsEx "debug.foo.on" true = true :=
  ⟨rfl, claim_c6_empty_value_bool_default ApiPath.callback nsEx
      "debug.foo.on" rfl⟩

/-- Claim C7: every operation is a total function with no error channel:
`GetSystemProp` returns the caller's default, the empty string, or the
present value; `GetSystemPropAsInt` returns the caller's default or the
`strtoll` decode of the present value; `GetSystemPropAsBool` returns the
caller's default or the zero test of that decode. -/
theorem claim_c7_no_error_channel (path : ApiPath) (ns : PropNamespace)
    (key D : String) (Di : Int) (Db : Bool) :
    (GetSystemProp path ns key D = D ∨ GetSystemProp path ns key D = "" ∨
      ns key = some (GetSystemProp path ns key D)) ∧
    (GetSystemPropAsInt path ns key Di = Di ∨
      ∃ v, ns key = some v ∧
        GetSystemPropAsInt path ns key Di = intOfLL (strtoll10 v.data)) ∧
    (GetSystemPropAsBool path ns key Db = Db ∨
      ∃ v, ns key = some v ∧
        (GetSystemPropAsBool path ns key Db = true ↔
          intOfLL (strtoll10 v.data) ≠ 0)) := by
  cases hns : ns key with
  | none =>
    refine ⟨?_, ?_, ?_⟩
    · cases path
      · exact Or.inl (getSystemProp_absent_callback ns key D hns)
      · exact Or.inr (Or.inl (getSystemProp_absent_legacy ns key D hns))
    · exact Or.inl (getAsInt_retrieved_empty path ns key Di (Or.inl hns))
    · refine Or.inl ?_
      unfold GetSystemPropAsBool
      rw [getAsInt_retrieved_empty path ns key _ (Or.inl hns)]
      cases Db <;> decide
  | some v =>
    have hget : GetSystemProp path ns key D = v :=
      getSystemProp_present path ns key v D hns
    refine ⟨Or.inr (Or.inr (by rw [hget])), ?_, ?_⟩
    · by_cases hv : v = ""
      · subst hv
        exact Or.inl (getAsInt_retrieved_empty path ns key Di (Or.inr hns))
      · exact Or.inr ⟨v, rfl, getAsInt_present_nonempty path ns key v Di hns hv⟩
    · by_cases hv : v = ""
      · subst hv
        refine Or.inl ?_
        unfold GetSystemPropAsBool
        rw [getAsInt_retrieved_empty path ns key _ (Or.inr hns)]
        cases Db <;> decide
      · refine Or.inr ⟨v, rfl, ?_⟩
        unfold GetSystemPropAsBool
        rw [getAsInt_present_nonempty path ns key v _ hns hv]
        simp [bne_iff_ne]

/-- Claim C8: each operation is a deterministic function of the query
path, the key's entry in the namespace, and the default: two calls
against namespaces that agree on the key (in particular, the same
unchanged namespace twice) return equal results. -/
theorem claim_c8_deterministic (path : ApiPath) (ns1 ns2 : PropNamespace)
    (key D : String) (Di : Int) (Db : Bool) (h : ns1 key = ns2 key) :
    GetSystemProp path ns1 key D = GetSystemProp path ns2 key D ∧
    GetSystemPropAsInt path ns1 key Di = GetSystemPropAsInt path ns2 key Di ∧
    GetSystemPropAsBool path ns1 key Db = GetSystemPropAsBool path ns2 key Db := by
  have hget : ∀ d, GetSystemProp path ns1 key d = GetSystemProp path ns2 key d := by
    intro d
    cases path <;>
      simp [GetSystemProp, getSystemPropViaCallback, getSystemPropViaGet, h]
  refine ⟨hget D, ?_, ?_⟩
  · unfold GetSystemPropAsInt
    rw [hget ""]
  · unfold GetSystemPropAsBool GetSystemPropAsInt
    rw [hget ""]

theorem claim_c8_witness :
    nsEx "debug.foo.level" = nsEx2 "debug.foo.level" ∧
    GetSystemPropAsInt ApiPath.callback nsEx "debug.foo.level" (-1) =
      GetSystemPropAsInt ApiPath.callback nsEx2 "debug.foo.level" (-1) :=
  ⟨rfl,
   (claim_c8_deterministic ApiPath.callback nsEx nsEx2 "debug.foo.level"
      "" (-1) false rfl).2.1⟩

/-- Claim C9: in the state-passing embedding, no operation changes the
external namespace (final state equals initial state on every path), the
value of the stateful functions agrees with the pure embedding, and the
integer/boolean decode is the pure function `intOfLL ∘ strtoll10` of the
retrieved string. -/
theorem claim_c9_no_mutation (path : ApiPath) (ns : PropNamespace)
    (key Ds : String) (Di : Int) (Db : Bool) :
    (GetSystemPropS path key Ds ns).2 = ns ∧
    (GetSystemPropAsIntS path key Di ns).2 = ns ∧
    (GetSystemPropAsBoolS path key Db ns).2 = ns ∧
    (GetSystemPropS path key Ds ns).1 = GetSystemProp path ns key Ds ∧
    (GetSystemPropAsIntS path key Di ns).1 =
      (if (GetSystemPropS path key "" ns).1 = "" then Di
       else intOfLL (strtoll10 (GetSystemPropS path key "" ns).1.data)) ∧
    (GetSystemPropAsBoolS path key Db ns).1 =
      ((GetSystemPropAsIntS path key (if Db then 1 else 0) ns).1 != 0) := by
  have hframe : ∀ d, (GetSystemPropS path key d ns).2 = ns := by
    intro d
    cases path with
    | callback =>
      unfold GetSystemPropS getSystemPropViaCallbackS systemPropertyFindS
        systemPropertyReadCallbackS
      cases hk : ns key <;> simp [hk]
    | legacyGet =>
      unfold GetSystemPropS getSystemPropViaGetS systemPropertyGetS
      cases hk : ns key <;> simp [hk]
  have hval : ∀ d, (GetSystemPropS path key d ns).1 = GetSystemProp path ns key d := by
    intro d
    cases path with
    | callback =>
      unfold GetSystemPropS getSystemPropViaCallbackS systemPropertyFindS
        systemPropertyReadCallbackS GetSystemProp getSystemPropViaCallback
      cases hk : ns key <;> simp [hk]
    | legacyGet =>
      unfold GetSystemPropS getSystemPropViaGetS systemPropertyGetS
        GetSystemProp getSystemPropViaGet
      cases hk : ns key <;> simp [hk]
  refine ⟨hframe Ds, ?_, ?_, hval Ds, ?_, ?_⟩
  · unfold GetSystemPropAsIntS
    simpa using hframe ""
  · unfold GetSystemPropAsBoolS GetSystemPropAsIntS
    simpa using hframe ""
  · unfold GetSystemPropAsIntS
    simp
  · unfold GetSystemPropAsBoolS
    simp

/-- Claim C10: a present non-empty value is decoded with `strtoll`
semantics: the result is the integer denoted by the longest valid
decimal prefix (so `"42abc"` decodes to 42), a value with no parseable
numeric prefix decodes to 0 — never the caller's default — and
`GetSystemPropAsBool` on such a wholly non-numeric value returns `false`
regardless of its default. -/
theorem claim_c10_strtoll_semantics (path : ApiPath) (ns : PropNamespace)
    (key : String) (D : Int) :
    (∀ v, ns key = some v → v ≠ "" →
      GetSystemPropAsInt path ns key D = intOfLL (strtoll10 v.data)) ∧
    (∀ ws sgn ds rest v, ns key = some v → v ≠ "" →
      v.data = ws ++ (sgn ++ (ds ++ rest)) →
      (∀ c ∈ ws, isSpaceChar c = true) →
      (sgn = [] ∨ sgn = ['+'] ∨ sgn = ['-']) →
      (∀ c ∈ ds, c.isDigit = true) →
      (∀ c, rest.head? = some c →
        c.isDigit = false ∧ isSpaceChar c = false ∧ c ≠ '+' ∧ c ≠ '-') →
      GetSystemPropAsInt path ns key D =
        intOfLL (clampLL (signVal sgn (digitsVal ds)))) ∧
    (ns key = some "42abc" → GetSystemPropAsInt path ns key D = 42) ∧
    (ns key = some "abc" → GetSystemPropAsInt path ns key D = 0) ∧
    (∀ d, ns key = some "abc" → GetSystemPropAsBool path ns key d = false) := by
  refine ⟨?_, ?_, ?_, ?_, ?_⟩
  · intro v h hv
    exact getAsInt_present_nonempty path ns key v D h hv
  · intro ws sgn ds rest v h hv hdata hws hsgn hds hrest
    rw [getAsInt_present_nonempty path ns key v D h hv, hdata,
      strtoll10_decomp ws sgn ds rest hws hsgn hds hrest]
  · intro h
    rw [getAsInt_present_nonempty path ns key "42abc" D h (by decide)]
    decide
  · intro h
    rw [getAsInt_present_nonempty path ns key "abc" D h (by decide)]
    decide
  · intro d h
    unfold GetSystemPropAsBool
    rw [getAsInt_present_nonempty path ns key "abc" _ h (by decide)]
    decide

theorem claim_c10_witness :
    nsEx "debug.mixed" = some "42abc" ∧
    GetSystemPropAsInt ApiPath.callback nsEx "debug.mixed" (-7) = 42 ∧
    nsEx "debug.word" = some "abc" ∧
    GetSystemPropAsInt ApiPath.callback nsEx "debug.word" (-7) = 0 ∧
    GetSystemPropAsBool ApiPath.callback nsEx "debug.word" true = false :=
  ⟨rfl,
   (claim_c10_strtoll_semantics ApiPath.callback nsEx "debug.mixed" (-7)).2.2.1 rfl,
   rfl,
   (claim_c10_strtoll_semantics ApiPath.callback nsEx "debug.word" (-7)).2.2.2.1 rfl,
   (claim_c10_strtoll_semantics ApiPath.callback nsEx "debug.word" (-7)).2.2.2.2 true rfl⟩

end SystemUtils
